import Mathlib

/-!
Verification of the event-pipeline repository: a shallow embedding of the
event schema layer (internal/models), the persistence gateway
(internal/database/database.go), the dead-letter queue (internal/dlq), the
telemetry rate sampler and the consumption pipeline (pkg/consumer), together
with theorems settling the specification's claims about them.

Modelling conventions:
- `time.Time` values are modelled as `Nat` (only copied and compared, never
  computed on by the embedded code).
- Go `float64` amounts (`TotalAmount`, `Amount`, `Price`) are only carried
  from event to row, never used in arithmetic, so they are modelled by an
  opaque carrier `F64` with decidable equality.
- Go `int` quantities are modelled as `Int` (no claim depends on 64-bit
  wrap-around; the negation and addition in `UpsertInventory` stay far from
  the overflow boundary in every statement below).
- A SQL `MERGE INTO t USING (SELECT k) ON t.key = k WHEN MATCHED UPDATE ...
  WHEN NOT MATCHED INSERT ...` is modelled by `mergeUpsert`: if some row of
  the table matches the key, every matching row is updated in place,
  otherwise the insert row is appended.
-/

/-- Opaque carrier for Go float64 values that the embedded code only copies. -/
abbrev F64 := Int

/-- BaseEvent (internal/models): common envelope fields of every event. -/
structure BaseEvent where
  EventID : String
  EventType : String
  Timestamp : Nat
  deriving Repr, DecidableEq

/-- UserCreated event (internal/models). -/
structure UserCreated where
  base : BaseEvent
  UserID : String
  Email : String
  FirstName : String
  LastName : String
  CreatedAt : Nat
  deriving Repr, DecidableEq

/-- OrderItem (internal/models): one line item of an OrderPlaced event. -/
structure OrderItem where
  SKU : String
  Quantity : Int
  Price : F64
  deriving Repr, DecidableEq

/-- OrderPlaced event (internal/models). -/
structure OrderPlaced where
  base : BaseEvent
  OrderID : String
  UserID : String
  TotalAmount : F64
  Currency : String
  Items : List OrderItem
  PlacedAt : Nat
  deriving Repr, DecidableEq

/-- PaymentSettled event (internal/models). -/
structure PaymentSettled where
  base : BaseEvent
  PaymentID : String
  OrderID : String
  Amount : F64
  Currency : String
  PaymentMethod : String
  Status : String
  SettledAt : Nat
  deriving Repr, DecidableEq

/-- InventoryAdjusted event (internal/models). -/
structure InventoryAdjusted where
  base : BaseEvent
  SKU : String
  Quantity : Int
  AdjustmentType : String
  Reason : String
  AdjustedAt : Nat
  deriving Repr, DecidableEq

/-- DLQEntry (internal/models): one record of the dead-letter queue. -/
structure DLQEntry where
  EventID : String
  OriginalData : String
  Error : String
  Timestamp : Nat
  RetryCount : Int
  deriving Repr, DecidableEq

/-- Row of the `users` table (schema.sql). -/
structure UserRow where
  user_id : String
  email : String
  first_name : String
  last_name : String
  created_at : Nat
  updated_at : Nat
  deriving Repr, DecidableEq

/-- Row of the `orders` table (schema.sql). -/
structure OrderRow where
  order_id : String
  user_id : String
  total_amount : F64
  currency : String
  placed_at : Nat
  updated_at : Nat
  deriving Repr, DecidableEq

/-- Row of the `order_items` table (schema.sql). -/
structure OrderItemRow where
  order_id : String
  sku : String
  quantity : Int
  price : F64
  deriving Repr, DecidableEq

/-- Row of the `payments` table (schema.sql). -/
structure PaymentRow where
  payment_id : String
  order_id : String
  amount : F64
  currency : String
  payment_method : String
  status : String
  settled_at : Nat
  updated_at : Nat
  deriving Repr, DecidableEq

/-- Row of the `inventory` table (schema.sql). -/
structure InventoryRow where
  sku : String
  quantity : Int
  updated_at : Nat
  deriving Repr, DecidableEq

/-- The relational store: the five tables written by the persistence gateway. -/
structure DBState where
  users : List UserRow
  orders : List OrderRow
  order_items : List OrderItemRow
  payments : List PaymentRow
  inventory : List InventoryRow
  deriving Repr, DecidableEq

/-- Semantics of the SQL MERGE statements used by every upsert in
database.go: if any row of the table matches the key, each matching row is
updated in place; otherwise the insert row is appended. -/
def mergeUpsert (keyOf : ρ → String) (k : String) (upd : ρ → ρ) (ins : ρ)
    (tbl : List ρ) : List ρ :=
  if tbl.any (fun r => keyOf r == k) then
    tbl.map (fun r => if keyOf r = k then upd r else r)
  else
    tbl ++ [ins]

/-- UpsertUser (database.go lines 56-95): MERGE on users keyed by user_id;
on match overwrite email, first_name, last_name, updated_at; on no match
insert the full row, created_at taken from the event, updated_at from the
clock. -/
def upsertUser (e : UserCreated) (now : Nat) (s : DBState) : DBState :=
  let users' :=
    mergeUpsert (fun r => r.user_id) e.UserID
      (fun r => { r with email := e.Email, first_name := e.FirstName,
                         last_name := e.LastName, updated_at := now })
      { user_id := e.UserID, email := e.Email, first_name := e.FirstName,
        last_name := e.LastName, created_at := e.CreatedAt, updated_at := now }
      s.users
  { s with users := users' }

/-- UpsertOrder (database.go lines 98-170): one transaction that MERGEs the
order row keyed by order_id, deletes every order_items row with that
order_id, then inserts one row per delivered item. -/
def upsertOrder (e : OrderPlaced) (now : Nat) (s : DBState) : DBState :=
  let orders' :=
    mergeUpsert (fun r => r.order_id) e.OrderID
      (fun r => { r with user_id := e.UserID, total_amount := e.TotalAmount,
                         currency := e.Currency, updated_at := now })
      { order_id := e.OrderID, user_id := e.UserID,
        total_amount := e.TotalAmount, currency := e.Currency,
        placed_at := e.PlacedAt, updated_at := now }
      s.orders
  let items' :=
    (s.order_items.filter (fun i => !(i.order_id == e.OrderID)))
      ++ e.Items.map (fun it =>
           { order_id := e.OrderID, sku := it.SKU,
             quantity := it.Quantity, price := it.Price })
  { s with orders := orders', order_items := items' }

/-- UpsertPayment (database.go lines 173-212): MERGE on payments keyed by
payment_id; on match overwrite order_id, amount, currency, payment_method,
status, settled_at, updated_at; on no match insert the full row. -/
def upsertPayment (e : PaymentSettled) (now : Nat) (s : DBState) : DBState :=
  let payments' :=
    mergeUpsert (fun r => r.payment_id) e.PaymentID
      (fun r => { r with order_id := e.OrderID, amount := e.Amount,
                         currency := e.Currency,
                         payment_method := e.PaymentMethod,
                         status := e.Status, settled_at := e.SettledAt,
                         updated_at := now })
      { payment_id := e.PaymentID, order_id := e.OrderID,
        amount := e.Amount, currency := e.Currency,
        payment_method := e.PaymentMethod, status := e.Status,
        settled_at := e.SettledAt, updated_at := now }
      s.payments
  { s with payments := payments' }

/-- UpsertInventory (database.go lines 215-255): the delta is the event's
quantity, negated when AdjustmentType is "subtract"; MERGE on inventory
keyed by sku; on match add the delta to the stored quantity; on no match
insert a row seeded with the delta. -/
def upsertInventory (e : InventoryAdjusted) (now : Nat) (s : DBState) : DBState :=
  let delta := if e.AdjustmentType = "subtract" then -e.Quantity else e.Quantity
  let inventory' :=
    mergeUpsert (fun r => r.sku) e.SKU
      (fun r => { r with quantity := r.quantity + delta, updated_at := now })
      { sku := e.SKU, quantity := delta, updated_at := now }
      s.inventory
  { s with inventory := inventory' }

/-- Stored quantity for a SKU: quantity of the first inventory row matching
it, as a SELECT by the unique key would return. -/
def invQty (s : DBState) (sku : String) : Option Int :=
  (s.inventory.find? (fun r => r.sku == sku)).map (fun r => r.quantity)

/-!
Consumption pipeline (pkg/consumer/consumer.go, part of the repo whose file
name is unknown here). A broker message is observed by the pipeline only
through `string(msg.Value)` and the five `json.Unmarshal` calls performed on
its bytes, so a message value is embedded as its raw text together with the
outcome of each of those decodes. On a failed envelope decode the Go
`baseEvent` variable may be left partially populated; no claim depends on
its value there, and the model uses the zero value (empty event id), which
is what the spec describes for that path. The outcome of the single
persistence call is environment-dependent (constraint violation, timeout,
connectivity), so it is an explicit parameter `dbErr`: `none` means the
upsert succeeds, `some em` means it fails with underlying error text `em`
and leaves the store unchanged (the order upsert runs in a transaction that
is rolled back; the single-statement upserts write nothing on failure).
`dlqOk` says whether the Redis RPUSH of the failure record succeeds.
-/

/-- A broker message as the pipeline observes it: raw text plus the outcome
of each json.Unmarshal the consumer may perform on the bytes. -/
structure MsgValue where
  raw : String
  base : Except String BaseEvent
  asUser : Except String UserCreated
  asOrder : Except String OrderPlaced
  asPayment : Except String PaymentSettled
  asInventory : Except String InventoryAdjusted

/-- DLQ.Push (internal/dlq): the entry built for a failed message; the retry
counter is always written as zero. -/
def mkDLQEntry (eventID originalData errorMsg : String) (now : Nat) : DLQEntry :=
  { EventID := eventID, OriginalData := originalData, Error := errorMsg,
    Timestamp := now, RetryCount := 0 }

/-- Result of one handler: the persistence-gateway operations invoked (by
their latency-metric label) and either the new store or the error text the
handler returns. -/
abbrev HandlerResult := List String × Except String DBState

/-- Consumer.handleUserCreated: decode the full UserCreated payload, then
call UpsertUser; a decode failure returns without touching the gateway. -/
def handleUserCreated (m : MsgValue) (dbErr : Option String) (now : Nat)
    (db : DBState) : HandlerResult :=
  match m.asUser with
  | .error em => ([], .error ("failed to unmarshal UserCreated event: " ++ em))
  | .ok e =>
    match dbErr with
    | none => (["upsert_user"], .ok (upsertUser e now db))
    | some em => (["upsert_user"], .error ("failed to upsert user: " ++ em))

/-- Consumer.handleOrderPlaced: decode the full OrderPlaced payload, then
call UpsertOrder. -/
def handleOrderPlaced (m : MsgValue) (dbErr : Option String) (now : Nat)
    (db : DBState) : HandlerResult :=
  match m.asOrder with
  | .error em => ([], .error ("failed to unmarshal OrderPlaced event: " ++ em))
  | .ok e =>
    match dbErr with
    | none => (["upsert_order"], .ok (upsertOrder e now db))
    | some em => (["upsert_order"], .error ("failed to upsert order: " ++ em))

/-- Consumer.handlePaymentSettled: decode the full PaymentSettled payload,
then call UpsertPayment. -/
def handlePaymentSettled (m : MsgValue) (dbErr : Option String) (now : Nat)
    (db : DBState) : HandlerResult :=
  match m.asPayment with
  | .error em => ([], .error ("failed to unmarshal PaymentSettled event: " ++ em))
  | .ok e =>
    match dbErr with
    | none => (["upsert_payment"], .ok (upsertPayment e now db))
    | some em => (["upsert_payment"], .error ("failed to upsert payment: " ++ em))

/-- Consumer.handleInventoryAdjusted: decode the full InventoryAdjusted
payload, then call UpsertInventory. -/
def handleInventoryAdjusted (m : MsgValue) (dbErr : Option String) (now : Nat)
    (db : DBState) : HandlerResult :=
  match m.asInventory with
  | .error em => ([], .error ("failed to unmarshal InventoryAdjusted event: " ++ em))
  | .ok e =>
    match dbErr with
    | none => (["upsert_inventory"], .ok (upsertInventory e now db))
    | some em => (["upsert_inventory"], .error ("failed to upsert inventory: " ++ em))

/-- Observable outcome of Consumer.processMessage for one message. -/
structure ProcResult where
  db : DBState
  dlq : List DLQEntry
  dlqPushes : List DLQEntry
  gatewayCalls : List String
  procIncs : List (String × String)
  countInc : Option String
  committed : Bool

/-- Consumer.processMessage: decode the envelope (failure goes straight to
the DLQ and commits), route on the discriminant to the matching handler or
an unknown-event-type error, push failures to the DLQ, record the
MessagesProcessed counter increments and the rolling-count increment, and
commit the offset on every path. `dlqPushes` lists the records handed to
DLQ.Push; `dlq` is the Redis list after the message, which grows only when
the push succeeds (`dlqOk`). The switch of processMessage on the
discriminant is factored out as `routeEvent`. -/
def routeEvent (m : MsgValue) (b : BaseEvent) (dbErr : Option String)
    (now : Nat) (db : DBState) : HandlerResult :=
  if b.EventType = "UserCreated" then handleUserCreated m dbErr now db
  else if b.EventType = "OrderPlaced" then handleOrderPlaced m dbErr now db
  else if b.EventType = "PaymentSettled" then handlePaymentSettled m dbErr now db
  else if b.EventType = "InventoryAdjusted" then handleInventoryAdjusted m dbErr now db
  else ([], .error ("unknown event type: " ++ b.EventType))

def processMessage (m : MsgValue) (dbErr : Option String) (dlqOk : Bool)
    (now : Nat) (db : DBState) (dlq : List DLQEntry) : ProcResult :=
  match m.base with
  | .error em =>
    let entry := mkDLQEntry "" m.raw ("Failed to parse base event: " ++ em) now
    { db := db,
      dlq := if dlqOk then dlq ++ [entry] else dlq,
      dlqPushes := [entry],
      gatewayCalls := [],
      procIncs := [],
      countInc := none,
      committed := true }
  | .ok b =>
    match routeEvent m b dbErr now db with
    | (calls, .error em) =>
      let entry := mkDLQEntry b.EventID m.raw em now
      { db := db,
        dlq := if dlqOk then dlq ++ [entry] else dlq,
        dlqPushes := [entry],
        gatewayCalls := calls,
        procIncs := [(b.EventType, "error")],
        countInc := none,
        committed := true }
    | (calls, .ok db') =>
      { db := db',
        dlq := dlq,
        dlqPushes := [],
        gatewayCalls := calls,
        procIncs := [(b.EventType, "success")],
        countInc := some b.EventType,
        committed := true }

/-- State of the per-variant rolling count and rate gauge kept by
Consumer.Start: `count` is the processedCount map (absent keys read 0),
`gauge` the MessagesProcessedPerSecond gauge vector. -/
structure RateState where
  count : String → Nat
  gauge : String → Nat

/-- One tick of the sampling goroutine in Consumer.Start: for each variant,
only when its rolling count is positive, set the gauge to the count and
reset the count to zero. -/
def sampleTick (st : RateState) : RateState :=
  { count := fun et => if st.count et > 0 then 0 else st.count et,
    gauge := fun et => if st.count et > 0 then st.count et else st.gauge et }

/-- The processedCount increment performed on the success path of
processMessage, applied to the rate state. -/
def applyCountInc (st : RateState) (inc : Option String) : RateState :=
  match inc with
  | none => st
  | some et => { st with count := fun x => if x = et then st.count x + 1 else st.count x }

/-- The four known discriminant values (internal/models constants). -/
def knownEventTypes : List String :=
  ["UserCreated", "OrderPlaced", "PaymentSettled", "InventoryAdjusted"]

/-- The decode-error cause texts the pipeline produces: the envelope decode
error of processMessage or one of the four payload decode errors of the
handlers, each carrying the underlying decoder message. -/
def DecodeErrorText (s : String) : Prop :=
  (∃ em, s = "Failed to parse base event: " ++ em)
  ∨ (∃ em, s = "failed to unmarshal UserCreated event: " ++ em)
  ∨ (∃ em, s = "failed to unmarshal OrderPlaced event: " ++ em)
  ∨ (∃ em, s = "failed to unmarshal PaymentSettled event: " ++ em)
  ∨ (∃ em, s = "failed to unmarshal InventoryAdjusted event: " ++ em)

/-- A payload decode failure: the envelope's discriminant names one of the
four known variants but the variant-specific unmarshal of the body fails. -/
def payloadDecodeFails (m : MsgValue) (b : BaseEvent) : Prop :=
  (b.EventType = "UserCreated" ∧ ∃ em, m.asUser = .error em)
  ∨ (b.EventType = "OrderPlaced" ∧ ∃ em, m.asOrder = .error em)
  ∨ (b.EventType = "PaymentSettled" ∧ ∃ em, m.asPayment = .error em)
  ∨ (b.EventType = "InventoryAdjusted" ∧ ∃ em, m.asInventory = .error em)

/-!
Generic lemmas about the MERGE semantics. `settledTable keyOf k good tbl`
says the table holds exactly one row matching key `k` and every matching row
satisfies `good`.
-/

def settledTable (keyOf : ρ → String) (k : String) (good : ρ → Prop)
    (tbl : List ρ) : Prop :=
  tbl.countP (fun r => keyOf r == k) = 1 ∧ ∀ r ∈ tbl, keyOf r = k → good r

theorem mergeUpsert_of_not_mem (keyOf : ρ → String) (k : String) (upd : ρ → ρ)
    (ins : ρ) (tbl : List ρ) (h : ∀ r ∈ tbl, keyOf r ≠ k) :
    mergeUpsert keyOf k upd ins tbl = tbl ++ [ins] := by
  have hany : tbl.any (fun r => keyOf r == k) = false := by
    rw [List.any_eq_false]
    intro r hr
    simpa using h r hr
  simp [mergeUpsert, hany]

theorem mergeUpsert_of_mem (keyOf : ρ → String) (k : String) (upd : ρ → ρ)
    (ins : ρ) (tbl : List ρ) (h : ∃ r ∈ tbl, keyOf r = k) :
    mergeUpsert keyOf k upd ins tbl
      = tbl.map (fun r => if keyOf r = k then upd r else r) := by
  have hany : tbl.any (fun r => keyOf r == k) = true := by
    simp only [List.any_eq_true, beq_iff_eq]
    exact h
  simp [mergeUpsert, hany]

theorem settledTable_insert (keyOf : ρ → String) (k : String) (upd : ρ → ρ)
    (ins : ρ) (tbl : List ρ) (good : ρ → Prop)
    (h : ∀ r ∈ tbl, keyOf r ≠ k) (hk : keyOf ins = k) (hg : good ins) :
    settledTable keyOf k good (mergeUpsert keyOf k upd ins tbl) := by
  rw [mergeUpsert_of_not_mem keyOf k upd ins tbl h]
  constructor
  · rw [List.countP_append]
    have h0 : tbl.countP (fun r => keyOf r == k) = 0 := by
      rw [List.countP_eq_zero]
      intro r hr
      simp [h r hr]
    simp [h0, hk]
  · intro r hr hkr
    rcases List.mem_append.mp hr with h1 | h1
    · exact absurd hkr (h r h1)
    · rw [List.mem_singleton.mp h1]
      exact hg

theorem settledTable_update (keyOf : ρ → String) (k : String) (upd : ρ → ρ)
    (ins : ρ) (tbl : List ρ) (good good2 : ρ → Prop)
    (hkey : ∀ r, keyOf (upd r) = keyOf r)
    (hgood : ∀ r, keyOf r = k → good r → good2 (upd r))
    (hs : settledTable keyOf k good tbl) :
    settledTable keyOf k good2 (mergeUpsert keyOf k upd ins tbl) := by
  have hex : ∃ r ∈ tbl, keyOf r = k := by
    have hpos : 0 < tbl.countP (fun r => keyOf r == k) := by
      rw [hs.1]
      exact Nat.one_pos
    rcases List.countP_pos_iff.mp hpos with ⟨r, hr, hp⟩
    exact ⟨r, hr, beq_iff_eq.mp hp⟩
  rw [mergeUpsert_of_mem keyOf k upd ins tbl hex]
  constructor
  · rw [List.countP_map]
    have hfe : ((fun r => keyOf r == k) ∘ fun r => if keyOf r = k then upd r else r)
        = fun r => keyOf r == k := by
      funext r
      by_cases hc : keyOf r = k <;> simp [hc, hkey]
    rw [hfe]
    exact hs.1
  · intro r2 hr2 hk2
    rcases List.mem_map.mp hr2 with ⟨r, hr, rfl⟩
    by_cases hc : keyOf r = k
    · rw [if_pos hc]
      exact hgood r hc (hs.2 r hr hc)
    · rw [if_neg hc] at hk2
      exact absurd hk2 hc

theorem mergeUpsert_countP (keyOf : ρ → String) (k : String) (upd : ρ → ρ)
    (ins : ρ) (tbl : List ρ)
    (hkey : ∀ r, keyOf (upd r) = keyOf r) (hik : keyOf ins = k) :
    (mergeUpsert keyOf k upd ins tbl).countP (fun r => keyOf r == k)
      = if tbl.countP (fun r => keyOf r == k) = 0
        then 1 else tbl.countP (fun r => keyOf r == k) := by
  by_cases h0 : tbl.countP (fun r => keyOf r == k) = 0
  · have hno : ∀ r ∈ tbl, keyOf r ≠ k := by
      intro r hr
      have := List.countP_eq_zero.mp h0 r hr
      simpa using this
    rw [mergeUpsert_of_not_mem keyOf k upd ins tbl hno, List.countP_append]
    simp [h0, hik]
  · have hpos : 0 < tbl.countP (fun r => keyOf r == k) :=
      Nat.pos_of_ne_zero h0
    rcases List.countP_pos_iff.mp hpos with ⟨r, hr, hp⟩
    rw [mergeUpsert_of_mem keyOf k upd ins tbl ⟨r, hr, beq_iff_eq.mp hp⟩]
    rw [List.countP_map]
    have hfe : ((fun r => keyOf r == k) ∘ fun r => if keyOf r = k then upd r else r)
        = fun r => keyOf r == k := by
      funext r2
      by_cases hc : keyOf r2 = k <;> simp [hc, hkey]
    rw [hfe, if_neg h0]

theorem mergeUpsert_absorb (keyOf : ρ → String) (k : String)
    (upd upd2 : ρ → ρ) (ins ins2 : ρ) (tbl : List ρ)
    (hkey2 : ∀ r, keyOf (upd2 r) = keyOf r)
    (hik2 : keyOf ins2 = k)
    (hcomp : ∀ r, keyOf r = k → upd (upd2 r) = upd r)
    (hui : upd ins2 = ins) :
    mergeUpsert keyOf k upd ins (mergeUpsert keyOf k upd2 ins2 tbl)
      = mergeUpsert keyOf k upd ins tbl := by
  by_cases h0 : ∃ r ∈ tbl, keyOf r = k
  · rw [mergeUpsert_of_mem keyOf k upd2 ins2 tbl h0]
    rcases h0 with ⟨r0, hr0, hk0⟩
    have h1 : ∃ r ∈ tbl.map (fun r => if keyOf r = k then upd2 r else r), keyOf r = k := by
      refine ⟨if keyOf r0 = k then upd2 r0 else r0, List.mem_map_of_mem _ hr0, ?_⟩
      rw [if_pos hk0, hkey2, hk0]
    rw [mergeUpsert_of_mem keyOf k upd ins _ h1,
        mergeUpsert_of_mem keyOf k upd ins tbl ⟨r0, hr0, hk0⟩, List.map_map]
    apply List.map_congr_left
    intro r _
    simp only [Function.comp_apply]
    by_cases hc : keyOf r = k
    · have hk2r : keyOf (upd2 r) = k := by
        rw [hkey2]
        exact hc
      simp only [if_pos hc, if_pos hk2r, hcomp r hc]
    · simp only [if_neg hc]
  · have hno : ∀ r ∈ tbl, keyOf r ≠ k := by
      intro r hr hk2
      exact h0 ⟨r, hr, hk2⟩
    rw [mergeUpsert_of_not_mem keyOf k upd2 ins2 tbl hno,
        mergeUpsert_of_not_mem keyOf k upd ins tbl hno]
    have h1 : ∃ r ∈ tbl ++ [ins2], keyOf r = k :=
      ⟨ins2, List.mem_append_right tbl (List.mem_singleton_self ins2), hik2⟩
    rw [mergeUpsert_of_mem keyOf k upd ins _ h1, List.map_append]
    have h2 : tbl.map (fun r => if keyOf r = k then upd r else r) = tbl := by
      conv_rhs => rw [← List.map_id tbl]
      apply List.map_congr_left
      intro r hr
      rw [if_neg (hno r hr)]
      rfl
    rw [h2]
    simp only [List.map_cons, List.map_nil]
    rw [if_pos hik2, hui]

theorem find?_map_of_pred_comm (p : ρ → Bool) (f : ρ → ρ)
    (hf : ∀ r, p (f r) = p r) (l : List ρ) :
    (l.map f).find? p = (l.find? p).map f := by
  induction l with
  | nil => rfl
  | cons a l ih =>
    by_cases h : p a
    · simp [List.find?, hf, h]
    · simp only [List.map_cons, List.find?]
      rw [hf a]
      simp only [h]
      simpa using ih

/-!
Idempotency machinery for UpsertUser and UpsertPayment (claim about N-fold
re-delivery). The row an N-fold delivery must converge to is the full row
written from the event, with updated_at from the clock of the last delivery.
-/

/-- The users row UpsertUser writes for event `e` at clock `t`. -/
def userRowOf (e : UserCreated) (t : Nat) : UserRow :=
  { user_id := e.UserID, email := e.Email, first_name := e.FirstName,
    last_name := e.LastName, created_at := e.CreatedAt, updated_at := t }

/-- The payments row UpsertPayment writes for event `p` at clock `t`. -/
def paymentRowOf (p : PaymentSettled) (t : Nat) : PaymentRow :=
  { payment_id := p.PaymentID, order_id := p.OrderID, amount := p.Amount,
    currency := p.Currency, payment_method := p.PaymentMethod,
    status := p.Status, settled_at := p.SettledAt, updated_at := t }

/-- After processing, exactly one users row carries the event's user id and
it is the row written from the event at clock `t`. -/
def userSettled (e : UserCreated) (t : Nat) (s : DBState) : Prop :=
  settledTable (fun r => r.user_id) e.UserID (fun r => r = userRowOf e t) s.users

/-- After processing, exactly one payments row carries the event's payment
id and it is the row written from the event at clock `t`. -/
def paymentSettled (p : PaymentSettled) (t : Nat) (s : DBState) : Prop :=
  settledTable (fun r => r.payment_id) p.PaymentID
    (fun r => r = paymentRowOf p t) s.payments

/-- Delivering the same UserCreated event N times: fold UpsertUser over the
list of per-delivery clock readings. -/
def upsertUserN (e : UserCreated) (ts : List Nat) (s : DBState) : DBState :=
  ts.foldl (fun st t => upsertUser e t st) s

/-- Delivering the same PaymentSettled event N times. -/
def upsertPaymentN (p : PaymentSettled) (ts : List Nat) (s : DBState) : DBState :=
  ts.foldl (fun st t => upsertPayment p t st) s

theorem userSettled_first (e : UserCreated) (t : Nat) (s : DBState)
    (h : ∀ r ∈ s.users, r.user_id ≠ e.UserID) :
    userSettled e t (upsertUser e t s) := by
  unfold userSettled upsertUser
  exact settledTable_insert _ _ _ _ _ _ h rfl rfl

theorem userSettled_step (e : UserCreated) (t t2 : Nat) (s : DBState)
    (h : userSettled e t s) : userSettled e t2 (upsertUser e t2 s) := by
  unfold userSettled upsertUser
  refine settledTable_update _ _ _ _ _ _ _ (fun r => rfl) ?_ h
  intro r hk hg
  rw [hg]
  have : e.UserID = (userRowOf e t).user_id := rfl
  unfold userRowOf
  rfl

theorem paymentSettled_first (p : PaymentSettled) (t : Nat) (s : DBState)
    (h : ∀ r ∈ s.payments, r.payment_id ≠ p.PaymentID) :
    paymentSettled p t (upsertPayment p t s) := by
  unfold paymentSettled upsertPayment
  exact settledTable_insert _ _ _ _ _ _ h rfl rfl

theorem paymentSettled_step (p : PaymentSettled) (t t2 : Nat) (s : DBState)
    (h : paymentSettled p t s) : paymentSettled p t2 (upsertPayment p t2 s) := by
  unfold paymentSettled upsertPayment
  refine settledTable_update _ _ _ _ _ _ _ (fun r => rfl) ?_ h
  intro r hk hg
  rw [hg]
  unfold paymentRowOf
  rfl

theorem upsertUserN_settled (e : UserCreated) (ts : List Nat) (t0 : Nat)
    (s : DBState) (h : userSettled e t0 s) :
    userSettled e (ts.getLastD t0) (upsertUserN e ts s) := by
  induction ts generalizing s t0 with
  | nil => simpa [upsertUserN]
  | cons t ts ih =>
    rw [List.getLastD_cons]
    simp only [upsertUserN, List.foldl_cons]
    exact ih t (upsertUser e t s) (userSettled_step e t0 t s h)

theorem upsertPaymentN_settled (p : PaymentSettled) (ts : List Nat) (t0 : Nat)
    (s : DBState) (h : paymentSettled p t0 s) :
    paymentSettled p (ts.getLastD t0) (upsertPaymentN p ts s) := by
  induction ts generalizing s t0 with
  | nil => simpa [upsertPaymentN]
  | cons t ts ih =>
    rw [List.getLastD_cons]
    simp only [upsertPaymentN, List.foldl_cons]
    exact ih t (upsertPayment p t s) (paymentSettled_step p t0 t s h)

theorem upsertUser_absorb (e : UserCreated) (t t2 : Nat) (s : DBState) :
    upsertUser e t (upsertUser e t2 s) = upsertUser e t s := by
  unfold upsertUser
  simp only []
  congr 1
  exact mergeUpsert_absorb _ _ _ _ _ _ _ (fun r => rfl) rfl (fun r _ => rfl) rfl

theorem upsertPayment_absorb (p : PaymentSettled) (t t2 : Nat) (s : DBState) :
    upsertPayment p t (upsertPayment p t2 s) = upsertPayment p t s := by
  unfold upsertPayment
  simp only []
  congr 1
  exact mergeUpsert_absorb _ _ _ _ _ _ _ (fun r => rfl) rfl (fun r _ => rfl) rfl

/-- The empty relational store. -/
def dbEmpty : DBState := { users := [], orders := [], order_items := [], payments := [], inventory := [] }

/-- The order_items row UpsertOrder writes for one delivered line item. -/
def orderItemRowOf (e : OrderPlaced) (it : OrderItem) : OrderItemRow :=
  { order_id := e.OrderID, sku := it.SKU, quantity := it.Quantity, price := it.Price }

/-- C1: delivering the same UserCreated (resp. PaymentSettled) event N >= 1
times in sequence, starting from a store holding no row with that business
key, leaves exactly one users (resp. payments) row whose key matches the
event, that row is the one written from the last delivery, and a second
identical invocation of the upsert does not change the stored state. -/
theorem user_payment_upsert_idempotent
    (e : UserCreated) (p : PaymentSettled) (ts us : List Nat) (s sp : DBState)
    (hts : ts ≠ []) (hus : us ≠ [])
    (hu : ∀ r ∈ s.users, r.user_id ≠ e.UserID)
    (hp : ∀ r ∈ sp.payments, r.payment_id ≠ p.PaymentID) :
    ((upsertUserN e ts s).users.countP (fun r => r.user_id == e.UserID) = 1
      ∧ ∀ r ∈ (upsertUserN e ts s).users, r.user_id = e.UserID →
          r = userRowOf e (ts.getLastD 0))
    ∧ ((upsertPaymentN p us sp).payments.countP (fun r => r.payment_id == p.PaymentID) = 1
      ∧ ∀ r ∈ (upsertPaymentN p us sp).payments, r.payment_id = p.PaymentID →
          r = paymentRowOf p (us.getLastD 0))
    ∧ (∀ t t2 st, upsertUser e t (upsertUser e t2 st) = upsertUser e t st)
    ∧ (∀ t t2 st, upsertPayment p t (upsertPayment p t2 st) = upsertPayment p t st) := by
  obtain ⟨t, ts2, rfl⟩ := List.exists_cons_of_ne_nil hts
  obtain ⟨u, us2, rfl⟩ := List.exists_cons_of_ne_nil hus
  have h1 : userSettled e (ts2.getLastD t) (upsertUserN e ts2 (upsertUser e t s)) :=
    upsertUserN_settled e ts2 t (upsertUser e t s) (userSettled_first e t s hu)
  have h2 : paymentSettled p (us2.getLastD u) (upsertPaymentN p us2 (upsertPayment p u sp)) :=
    upsertPaymentN_settled p us2 u (upsertPayment p u sp) (paymentSettled_first p u sp hp)
  refine ⟨⟨?_, ?_⟩, ⟨?_, ?_⟩, ?_, ?_⟩
  · exact h1.1
  · rw [List.getLastD_cons]
    exact h1.2
  · exact h2.1
  · rw [List.getLastD_cons]
    exact h2.2
  · intro t t2 st
    exact upsertUser_absorb e t t2 st
  · intro t t2 st
    exact upsertPayment_absorb p t t2 st

/-- Concrete UserCreated event used in witnesses. -/
def wUser : UserCreated :=
  { base := { EventID := "ev-u", EventType := "UserCreated", Timestamp := 1 },
    UserID := "u1", Email := "a@x", FirstName := "Ann", LastName := "Lee",
    CreatedAt := 2 }

/-- Concrete PaymentSettled event used in witnesses. -/
def wPayment : PaymentSettled :=
  { base := { EventID := "ev-p", EventType := "PaymentSettled", Timestamp := 1 },
    PaymentID := "p1", OrderID := "o1", Amount := 700, Currency := "USD",
    PaymentMethod := "card", Status := "settled", SettledAt := 5 }

/-- Witness for C1 at a concrete double delivery into the empty store. -/
theorem user_payment_upsert_idempotent_witness :
    (([3, 4] : List Nat) ≠ []
      ∧ (∀ r ∈ dbEmpty.users, r.user_id ≠ wUser.UserID))
    ∧ (upsertUserN wUser [3, 4] dbEmpty).users.countP
        (fun r => r.user_id == wUser.UserID) = 1
    ∧ (upsertPaymentN wPayment [6] dbEmpty).payments.countP
        (fun r => r.payment_id == wPayment.PaymentID) = 1 := by
  have h := user_payment_upsert_idempotent wUser wPayment [3, 4] [6] dbEmpty dbEmpty
    (by simp) (by simp)
    (by intro r hr; simp [dbEmpty] at hr)
    (by intro r hr; simp [dbEmpty] at hr)
  exact ⟨⟨by simp, by intro r hr; simp [dbEmpty] at hr⟩, h.1.1, h.2.1.1⟩

/-- C2: UpsertOrder leaves, for the delivered order id, exactly the
delivered item set persisted (first conjunct), touches no other order's
items (second conjunct), yields exactly the re-delivered set after any
second delivery for the same order id, duplicates included (third
conjunct, with `e2 := e` for an identical re-delivery), and performs a
match-or-insert on the order row (fourth conjunct). -/
theorem order_items_full_replacement (e : OrderPlaced) (now : Nat) (s : DBState) :
    ((upsertOrder e now s).order_items.filter (fun i => i.order_id == e.OrderID)
       = e.Items.map (orderItemRowOf e))
    ∧ ((upsertOrder e now s).order_items.filter (fun i => !(i.order_id == e.OrderID))
       = s.order_items.filter (fun i => !(i.order_id == e.OrderID)))
    ∧ (∀ (e2 : OrderPlaced) (now2 : Nat),
        (upsertOrder e2 now2 (upsertOrder e now s)).order_items.filter
            (fun i => i.order_id == e2.OrderID)
          = e2.Items.map (orderItemRowOf e2))
    ∧ ((upsertOrder e now s).orders.countP (fun r => r.order_id == e.OrderID)
       = if s.orders.countP (fun r => r.order_id == e.OrderID) = 0 then 1
         else s.orders.countP (fun r => r.order_id == e.OrderID)) := by
  have key : ∀ (e3 : OrderPlaced) (now3 : Nat) (s3 : DBState),
      (upsertOrder e3 now3 s3).order_items.filter (fun i => i.order_id == e3.OrderID)
        = e3.Items.map (orderItemRowOf e3) := by
    intro e3 now3 s3
    show ((s3.order_items.filter (fun i => !(i.order_id == e3.OrderID)))
        ++ e3.Items.map (orderItemRowOf e3)).filter (fun i => i.order_id == e3.OrderID)
      = e3.Items.map (orderItemRowOf e3)
    rw [List.filter_append]
    have h1 : (s3.order_items.filter (fun i => !(i.order_id == e3.OrderID))).filter
        (fun i => i.order_id == e3.OrderID) = [] := by
      rw [List.filter_filter]
      apply List.filter_eq_nil_iff.mpr
      intro a _
      by_cases hc : a.order_id = e3.OrderID <;> simp [hc]
    have h2 : (e3.Items.map (orderItemRowOf e3)).filter
        (fun i => i.order_id == e3.OrderID) = e3.Items.map (orderItemRowOf e3) := by
      apply List.filter_eq_self.mpr
      intro a ha
      rcases List.mem_map.mp ha with ⟨it, _, rfl⟩
      simp [orderItemRowOf]
    rw [h1, h2, List.nil_append]
  refine ⟨key e now s, ?_, fun e2 now2 => key e2 now2 _, ?_⟩
  · show ((s.order_items.filter (fun i => !(i.order_id == e.OrderID)))
        ++ e.Items.map (orderItemRowOf e)).filter (fun i => !(i.order_id == e.OrderID))
      = s.order_items.filter (fun i => !(i.order_id == e.OrderID))
    rw [List.filter_append]
    have h1 : (s.order_items.filter (fun i => !(i.order_id == e.OrderID))).filter
        (fun i => !(i.order_id == e.OrderID))
        = s.order_items.filter (fun i => !(i.order_id == e.OrderID)) := by
      apply List.filter_eq_self.mpr
      intro a ha
      exact (List.mem_filter.mp ha).2
    have h2 : (e.Items.map (orderItemRowOf e)).filter
        (fun i => !(i.order_id == e.OrderID)) = [] := by
      apply List.filter_eq_nil_iff.mpr
      intro a ha
      rcases List.mem_map.mp ha with ⟨it, _, rfl⟩
      simp [orderItemRowOf]
    rw [h1, h2, List.append_nil]
  · exact mergeUpsert_countP _ _ _ _ _ (fun r => rfl) rfl

/-- C10: when a users row for the event's user id already exists, UpsertUser
rewrites each matching row's email, first_name, last_name and updated_at
only, leaving created_at (and the key) untouched; column created_at is
unchanged across the whole table. -/
theorem upsert_user_matched_preserves_created_at (e : UserCreated) (now : Nat)
    (s : DBState) (h : ∃ r ∈ s.users, r.user_id = e.UserID) :
    ((upsertUser e now s).users
      = s.users.map (fun r => if r.user_id = e.UserID then
          { r with email := e.Email, first_name := e.FirstName,
                   last_name := e.LastName, updated_at := now } else r))
    ∧ ((upsertUser e now s).users.map (fun r => (r.user_id, r.created_at))
      = s.users.map (fun r => (r.user_id, r.created_at))) := by
  have h1 : (upsertUser e now s).users
      = s.users.map (fun r => if r.user_id = e.UserID then
          { r with email := e.Email, first_name := e.FirstName,
                   last_name := e.LastName, updated_at := now } else r) :=
    mergeUpsert_of_mem _ _ _ _ _ h
  refine ⟨h1, ?_⟩
  rw [h1, List.map_map]
  apply List.map_congr_left
  intro r _
  by_cases hc : r.user_id = e.UserID <;> simp [hc]

/-- A pre-existing users row with wUser's id but older field values. -/
def wOldUserRow : UserRow :=
  { user_id := "u1", email := "old@x", first_name := "Old", last_name := "Name",
    created_at := 99, updated_at := 100 }

/-- Witness for C10: the matched update keeps created_at 99 while rewriting
the mutable columns. -/
theorem upsert_user_matched_preserves_created_at_witness :
    (upsertUser wUser 7 { dbEmpty with users := [wOldUserRow] }).users.map
        (fun r => (r.user_id, r.created_at))
      = [("u1", 99)] := by
  have h := upsert_user_matched_preserves_created_at wUser 7
    { dbEmpty with users := [wOldUserRow] }
    ⟨wOldUserRow, by simp, rfl⟩
  rw [h.2]
  rfl

/-- Concrete InventoryAdjusted event refuting C3: adjustmentType "subtract"
with a positive quantity. -/
def wSubtractEvent : InventoryAdjusted :=
  { base := { EventID := "ev-i", EventType := "InventoryAdjusted", Timestamp := 1 },
    SKU := "S", Quantity := 5, AdjustmentType := "subtract",
    Reason := "damage", AdjustedAt := 2 }

/-- Store holding quantity 10 for SKU "S". -/
def wInvState : DBState :=
  { dbEmpty with inventory := [{ sku := "S", quantity := 10, updated_at := 0 }] }

/-- Counterexample to C3 as stated: for adjustmentType "subtract" the code
negates the quantity before applying it, so from stored quantity 10 and
event quantity 5 the result is 5, not the 10 + 5 = 15 the claim requires. -/
theorem inventory_delta_unchanged_counterexample :
    invQty (upsertInventory wSubtractEvent 3 wInvState) "S" = some 5
      ∧ invQty (upsertInventory wSubtractEvent 3 wInvState) "S"
          ≠ some (10 + wSubtractEvent.Quantity) := by
  constructor
  · rfl
  · decide

/-- C3 amended: UpsertInventory applies the event's quantity unchanged for
every adjustmentType other than "subtract"; for "subtract" it applies the
negated quantity. The insert path seeds the row with that delta (empty
lookup reads as 0) and the match path adds it to the stored quantity. -/
theorem inventory_delta_applied (e : InventoryAdjusted) (now : Nat)
    (s : DBState) (q? : Option Int) (h : invQty s e.SKU = q?) :
    invQty (upsertInventory e now s) e.SKU
      = some (q?.getD 0
          + (if e.AdjustmentType = "subtract" then -e.Quantity else e.Quantity)) := by
  unfold invQty at h
  cases hf : s.inventory.find? (fun r => r.sku == e.SKU) with
  | none =>
    rw [hf] at h
    have hno : ∀ r ∈ s.inventory, r.sku ≠ e.SKU := by
      intro r hr
      have := List.find?_eq_none.mp hf r hr
      simpa using this
    unfold invQty upsertInventory
    simp only []
    rw [mergeUpsert_of_not_mem _ _ _ _ _ hno, List.find?_append]
    have h2 : s.inventory.find? (fun r => r.sku == e.SKU) = none := hf
    rw [h2]
    simp only [Option.none_or]
    rw [← h]
    simp [List.find?]
  | some r =>
    rw [hf] at h
    have hr : r ∈ s.inventory := List.mem_of_find?_eq_some hf
    have hk : r.sku = e.SKU := by
      have := List.find?_some hf
      simpa using this
    unfold invQty upsertInventory
    simp only []
    rw [mergeUpsert_of_mem _ _ _ _ _ ⟨r, hr, hk⟩]
    rw [find?_map_of_pred_comm (fun r2 => r2.sku == e.SKU) _ ?hcomm s.inventory]
    case hcomm =>
      intro r2
      by_cases hc : r2.sku = e.SKU <;> simp [hc]
    rw [hf, ← h]
    simp [hk]

/-- Witness for C3 amended, exercising both the match path (an "add" event
on an existing row) and the insert path (an event with an unseen SKU). -/
theorem inventory_delta_applied_witness :
    invQty (upsertInventory
        { base := { EventID := "ev-a", EventType := "InventoryAdjusted", Timestamp := 1 },
          SKU := "S", Quantity := 7, AdjustmentType := "add",
          Reason := "restock", AdjustedAt := 2 } 4 wInvState) "S" = some (10 + 7) := by
  have h := inventory_delta_applied
    { base := { EventID := "ev-a", EventType := "InventoryAdjusted", Timestamp := 1 },
      SKU := "S", Quantity := 7, AdjustmentType := "add",
      Reason := "restock", AdjustedAt := 2 } 4 wInvState (some 10) (by rfl)
  rw [h]
  decide

/-- C8: the spec scenario — an InventoryAdjusted event with sku "X",
quantity -50 and adjustmentType "returned" applied over a stored quantity of
10 leaves the stored quantity at -40. -/
theorem inventory_returned_scenario :
    invQty (upsertInventory
        { base := { EventID := "ev-r", EventType := "InventoryAdjusted", Timestamp := 1 },
          SKU := "X", Quantity := -50, AdjustmentType := "returned",
          Reason := "customer return", AdjustedAt := 2 } 3
        { dbEmpty with inventory := [{ sku := "X", quantity := 10, updated_at := 0 }] })
      "X" = some (-40) := by
  rfl

/-- C4: an envelope that decodes but whose discriminant is none of the four
known variants yields exactly one failure record carrying an "unknown event
type" description, zero persistence-gateway calls, an unchanged store, and
(when the sink push succeeds) exactly that one record appended to the
Failure Sink. -/
theorem unknown_variant_routing (m : MsgValue) (b : BaseEvent)
    (dbErr : Option String) (dlqOk : Bool) (now : Nat) (db : DBState)
    (dlq : List DLQEntry) (hb : m.base = .ok b)
    (h1 : b.EventType ≠ "UserCreated") (h2 : b.EventType ≠ "OrderPlaced")
    (h3 : b.EventType ≠ "PaymentSettled") (h4 : b.EventType ≠ "InventoryAdjusted") :
    (processMessage m dbErr dlqOk now db dlq).dlqPushes
        = [mkDLQEntry b.EventID m.raw ("unknown event type: " ++ b.EventType) now]
    ∧ (processMessage m dbErr dlqOk now db dlq).gatewayCalls = []
    ∧ (processMessage m dbErr dlqOk now db dlq).db = db
    ∧ (dlqOk = true → (processMessage m dbErr dlqOk now db dlq).dlq
        = dlq ++ [mkDLQEntry b.EventID m.raw ("unknown event type: " ++ b.EventType) now]) := by
  have hroute : routeEvent m b dbErr now db
      = ([], .error ("unknown event type: " ++ b.EventType)) := by
    unfold routeEvent
    rw [if_neg h1, if_neg h2, if_neg h3, if_neg h4]
  refine ⟨?_, ?_, ?_, ?_⟩ <;>
    simp [processMessage, hb, hroute]

/-- Concrete message with a decodable envelope and an unknown discriminant. -/
def wUnknownMsg : MsgValue :=
  { raw := "unknown-body",
    base := .ok { EventID := "ev-x", EventType := "MysteryEvent", Timestamp := 0 },
    asUser := .error "n/a", asOrder := .error "n/a",
    asPayment := .error "n/a", asInventory := .error "n/a" }

/-- Witness for C4 at the concrete unknown-variant message. -/
theorem unknown_variant_routing_witness :
    (processMessage wUnknownMsg none true 0 dbEmpty []).dlqPushes
        = [mkDLQEntry "ev-x" wUnknownMsg.raw "unknown event type: MysteryEvent" 0]
    ∧ (processMessage wUnknownMsg none true 0 dbEmpty []).gatewayCalls = [] := by
  have h := unknown_variant_routing wUnknownMsg
    { EventID := "ev-x", EventType := "MysteryEvent", Timestamp := 0 }
    none true 0 dbEmpty [] rfl
    (by decide) (by decide) (by decide) (by decide)
  exact ⟨h.1, h.2.1⟩

/-- C5: a message whose body fails to decode — as the envelope or as the
variant payload of a known discriminant — invokes no persistence-gateway
operation, leaves the store unchanged, and hands exactly one failure record
to the Failure Sink, carrying the verbatim original bytes and a decode-error
cause text. -/
theorem malformed_payload_routing (m : MsgValue) (dbErr : Option String)
    (dlqOk : Bool) (now : Nat) (db : DBState) (dlq : List DLQEntry)
    (h : (∃ em, m.base = .error em)
        ∨ (∃ b, m.base = .ok b ∧ payloadDecodeFails m b)) :
    (processMessage m dbErr dlqOk now db dlq).gatewayCalls = []
    ∧ (processMessage m dbErr dlqOk now db dlq).db = db
    ∧ (processMessage m dbErr dlqOk now db dlq).dlqPushes.length = 1
    ∧ ∀ en ∈ (processMessage m dbErr dlqOk now db dlq).dlqPushes,
        en.OriginalData = m.raw ∧ DecodeErrorText en.Error := by
  rcases h with ⟨em, hem⟩ | ⟨b, hb, hpd⟩
  · refine ⟨?_, ?_, ?_, ?_⟩ <;> simp [processMessage, hem, mkDLQEntry]
    exact Or.inl ⟨em, rfl⟩
  · rcases hpd with ⟨ht, em, he⟩ | ⟨ht, em, he⟩ | ⟨ht, em, he⟩ | ⟨ht, em, he⟩
    · have hroute : routeEvent m b dbErr now db
          = ([], .error ("failed to unmarshal UserCreated event: " ++ em)) := by
        unfold routeEvent handleUserCreated
        rw [if_pos ht, he]
      refine ⟨?_, ?_, ?_, ?_⟩ <;> simp [processMessage, hb, hroute, mkDLQEntry]
      exact Or.inr (Or.inl ⟨em, rfl⟩)
    · have hroute : routeEvent m b dbErr now db
          = ([], .error ("failed to unmarshal OrderPlaced event: " ++ em)) := by
        unfold routeEvent handleOrderPlaced
        have hne : b.EventType ≠ "UserCreated" := by
          rw [ht]
          decide
        rw [if_neg hne, if_pos ht, he]
      refine ⟨?_, ?_, ?_, ?_⟩ <;> simp [processMessage, hb, hroute, mkDLQEntry]
      exact Or.inr (Or.inr (Or.inl ⟨em, rfl⟩))
    · have hroute : routeEvent m b dbErr now db
          = ([], .error ("failed to unmarshal PaymentSettled event: " ++ em)) := by
        unfold routeEvent handlePaymentSettled
        have hne1 : b.EventType ≠ "UserCreated" := by
          rw [ht]
          decide
        have hne2 : b.EventType ≠ "OrderPlaced" := by
          rw [ht]
          decide
        rw [if_neg hne1, if_neg hne2, if_pos ht, he]
      refine ⟨?_, ?_, ?_, ?_⟩ <;> simp [processMessage, hb, hroute, mkDLQEntry]
      exact Or.inr (Or.inr (Or.inr (Or.inl ⟨em, rfl⟩)))
    · have hroute : routeEvent m b dbErr now db
          = ([], .error ("failed to unmarshal InventoryAdjusted event: " ++ em)) := by
        unfold routeEvent handleInventoryAdjusted
        have hne1 : b.EventType ≠ "UserCreated" := by
          rw [ht]
          decide
        have hne2 : b.EventType ≠ "OrderPlaced" := by
          rw [ht]
          decide
        have hne3 : b.EventType ≠ "PaymentSettled" := by
          rw [ht]
          decide
        rw [if_neg hne1, if_neg hne2, if_neg hne3, if_pos ht, he]
      refine ⟨?_, ?_, ?_, ?_⟩ <;> simp [processMessage, hb, hroute, mkDLQEntry]
      exact Or.inr (Or.inr (Or.inr (Or.inr ⟨em, rfl⟩)))

/-- Concrete message whose envelope fails to decode. -/
def wBadBaseMsg : MsgValue :=
  { raw := "not json at all",
    base := .error "invalid character n",
    asUser := .error "n/a", asOrder := .error "n/a",
    asPayment := .error "n/a", asInventory := .error "n/a" }

/-- Witness for C5 at the concrete undecodable message. -/
theorem malformed_payload_routing_witness :
    (processMessage wBadBaseMsg none true 0 dbEmpty []).gatewayCalls = []
    ∧ (processMessage wBadBaseMsg none true 0 dbEmpty []).dlqPushes.length = 1 := by
  have h := malformed_payload_routing wBadBaseMsg none true 0 dbEmpty []
    (Or.inl ⟨"invalid character n", rfl⟩)
  exact ⟨h.1, h.2.2.1⟩

/-- C6: processMessage issues the broker offset commit for every message on
every disposition path — envelope decode failure, unknown variant, payload
decode failure, persistence failure, failed sink push, and success alike —
so (absent a crash) the message is not re-delivered on the next poll. -/
theorem offset_commit_on_every_path (m : MsgValue) (dbErr : Option String)
    (dlqOk : Bool) (now : Nat) (db : DBState) (dlq : List DLQEntry) :
    (processMessage m dbErr dlqOk now db dlq).committed = true := by
  cases hb : m.base with
  | error em => simp [processMessage, hb]
  | ok b =>
    rcases h2 : routeEvent m b dbErr now db with ⟨calls, res⟩
    cases res <;> simp [processMessage, hb, h2]

/-- Concrete message refuting C7: the envelope fails to decode. -/
def wGarbageMsg : MsgValue :=
  { raw := "garbage-bytes",
    base := .error "unexpected end of JSON input",
    asUser := .error "n/a", asOrder := .error "n/a",
    asPayment := .error "n/a", asInventory := .error "n/a" }

/-- Counterexample to C7 as stated: on an envelope decode failure the code
pushes a failure record but performs no processed-error counter increment
at all (the increment sits after the routing switch, which this path never
reaches). -/
theorem failure_counter_counterexample :
    (processMessage wGarbageMsg none true 0 dbEmpty []).dlqPushes.length = 1
    ∧ (processMessage wGarbageMsg none true 0 dbEmpty []).procIncs = [] := by
  exact ⟨rfl, rfl⟩

/-- C7 amended: for unknown-variant, payload-decode and persistence
failures (the failure dispositions reached with a decoded envelope) the
pipeline pushes exactly one failure record and increments the
processed-error counter labeled with the envelope's raw discriminant
string; for an envelope decode failure it pushes exactly one failure record
but increments no processed counter. -/
theorem failure_counter_amended (m : MsgValue) (dbErr : Option String)
    (dlqOk : Bool) (now : Nat) (db : DBState) (dlq : List DLQEntry) :
    (∀ em, m.base = .error em →
        (processMessage m dbErr dlqOk now db dlq).procIncs = []
        ∧ (processMessage m dbErr dlqOk now db dlq).dlqPushes.length = 1)
    ∧ (∀ b, m.base = .ok b →
        (processMessage m dbErr dlqOk now db dlq).dlqPushes ≠ [] →
        (processMessage m dbErr dlqOk now db dlq).procIncs = [(b.EventType, "error")]
        ∧ (processMessage m dbErr dlqOk now db dlq).dlqPushes.length = 1) := by
  constructor
  · intro em hem
    exact ⟨by simp [processMessage, hem], by simp [processMessage, hem]⟩
  · intro b hb hne
    rcases h2 : routeEvent m b dbErr now db with ⟨calls, res⟩
    cases res with
    | ok db2 =>
      exact absurd (by simp [processMessage, hb, h2]) hne
    | error em =>
      exact ⟨by simp [processMessage, hb, h2], by simp [processMessage, hb, h2]⟩

/-- Witness for C7 amended: a persistence failure on a decoded UserCreated
message yields one push and one error increment labeled "UserCreated". -/
theorem failure_counter_amended_witness :
    (processMessage
        { raw := "user-body",
          base := .ok { EventID := "ev-u2", EventType := "UserCreated", Timestamp := 0 },
          asUser := .ok wUser, asOrder := .error "n/a",
          asPayment := .error "n/a", asInventory := .error "n/a" }
        (some "connection reset") true 0 dbEmpty []).procIncs
      = [("UserCreated", "error")] := by
  have h := (failure_counter_amended
      { raw := "user-body",
        base := .ok { EventID := "ev-u2", EventType := "UserCreated", Timestamp := 0 },
        asUser := .ok wUser, asOrder := .error "n/a",
        asPayment := .error "n/a", asInventory := .error "n/a" }
      (some "connection reset") true 0 dbEmpty []).2
    { EventID := "ev-u2", EventType := "UserCreated", Timestamp := 0 }
    rfl (by decide)
  exact h.1

/-- Rate state refuting C9: one UserCreated success accumulated, gauge 0. -/
def wRateState : RateState :=
  { count := fun et => if et = "UserCreated" then 1 else 0,
    gauge := fun _ => 0 }

/-- Counterexample to C9 as stated: after the first tick samples the one
success, the second interval sees no successes, yet its tick leaves the
gauge at the previous value 1 instead of the 0 the claim requires. -/
theorem rate_gauge_counterexample :
    (sampleTick wRateState).count "UserCreated" = 0
    ∧ (sampleTick (sampleTick wRateState)).gauge "UserCreated" = 1
    ∧ (sampleTick (sampleTick wRateState)).gauge "UserCreated" ≠ 0 := by
  refine ⟨rfl, rfl, by decide⟩

/-- C9 amended: each successful message increments the success counter
labeled by its variant and that variant's rolling count; each sampling tick
sets the gauge to the interval's count and resets the count only when the
count is positive, so after an interval with no successes of a variant the
gauge retains its previous value rather than reading 0. -/
theorem rate_gauge_amended (m : MsgValue) (b : BaseEvent) (dbErr : Option String)
    (dlqOk : Bool) (now : Nat) (db : DBState) (dlq : List DLQEntry)
    (st : RateState) (et : String) :
    (m.base = .ok b → (processMessage m dbErr dlqOk now db dlq).dlqPushes = [] →
        (processMessage m dbErr dlqOk now db dlq).procIncs = [(b.EventType, "success")]
        ∧ (processMessage m dbErr dlqOk now db dlq).countInc = some b.EventType
        ∧ (applyCountInc st (processMessage m dbErr dlqOk now db dlq).countInc).count b.EventType
            = st.count b.EventType + 1)
    ∧ (st.count et > 0 →
        (sampleTick st).gauge et = st.count et ∧ (sampleTick st).count et = 0)
    ∧ (st.count et = 0 →
        (sampleTick st).gauge et = st.gauge et ∧ (sampleTick st).count et = 0) := by
  refine ⟨?_, ?_, ?_⟩
  · intro hb hempty
    rcases h2 : routeEvent m b dbErr now db with ⟨calls, res⟩
    cases res with
    | ok db2 =>
      refine ⟨by simp [processMessage, hb, h2], by simp [processMessage, hb, h2], ?_⟩
      have hc : (processMessage m dbErr dlqOk now db dlq).countInc = some b.EventType := by
        simp [processMessage, hb, h2]
      rw [hc]
      simp [applyCountInc]
    | error em =>
      have hp : (processMessage m dbErr dlqOk now db dlq).dlqPushes
          = [mkDLQEntry b.EventID m.raw em now] := by
        simp [processMessage, hb, h2]
      rw [hp] at hempty
      exact absurd hempty (List.cons_ne_nil _ _)
  · intro hpos
    constructor <;> simp [sampleTick, hpos, Nat.pos_iff_ne_zero.mp hpos]
  · intro hzero
    constructor <;> simp [sampleTick, hzero]

/-- Witness for C9 amended: a successful UserCreated message bumps the
rolling count from 0 to 1, and a tick on a zero-count state leaves a
nonzero gauge in place. -/
theorem rate_gauge_amended_witness :
    (applyCountInc { count := fun _ => 0, gauge := fun _ => 5 }
        (processMessage
          { raw := "user-body",
            base := .ok { EventID := "ev-u3", EventType := "UserCreated", Timestamp := 0 },
            asUser := .ok wUser, asOrder := .error "n/a",
            asPayment := .error "n/a", asInventory := .error "n/a" }
          none true 0 dbEmpty []).countInc).count "UserCreated" = 0 + 1
    ∧ (sampleTick { count := fun _ => 0, gauge := fun _ => 5 }).gauge "UserCreated" = 5 := by
  have h := rate_gauge_amended
    { raw := "user-body",
      base := .ok { EventID := "ev-u3", EventType := "UserCreated", Timestamp := 0 },
      asUser := .ok wUser, asOrder := .error "n/a",
      asPayment := .error "n/a", asInventory := .error "n/a" }
    { EventID := "ev-u3", EventType := "UserCreated", Timestamp := 0 }
    none true 0 dbEmpty [] { count := fun _ => 0, gauge := fun _ => 5 } "UserCreated"
  exact ⟨(h.1 rfl rfl).2.2, (h.2.2 rfl).1⟩
